import Mathlib

/-!
# Verification of the i18n path-translation utility and theme toggle

This development embeds, in Lean, the internationalization utilities of the
blog repository (`src/i18n/ui.ts` and `src/i18n/utils.ts`) together with the
`ThemeToggle` React component, and proves the behavioural properties stated
about them.

Conventions of the embedding:
* JavaScript objects with string keys are modelled as association lists
  (`List (String × String)`), preserving declaration order, which is the
  iteration order of `Object.keys` / `Object.values` for string keys.
  Property access `obj[k]` is `assoc`, `k in obj` is `(assoc _ k).isSome`
  (own properties; prototype-chain members are out of scope).
* `String.prototype.split("/")` is `splitSlash`, defined by structural
  recursion over the character list; `String.prototype.startsWith` is
  `strStartsWith`; `path.replaceAll("/", "")` is `stripSlashes`.
* A URL is represented by its `pathname` string.
* Fallible results (`undefined` in the source) are `Option`.
-/

namespace Blog

/-- Property access `obj[key]` on a JS object modelled as an association
list: the value of the first (unique) binding of `key`, if any. -/
def assoc {α : Type} (tbl : List (String × α)) (k : String) : Option α :=
  (tbl.find? (fun p => p.1 == k)).map Prod.snd

/-- The splitting engine behind `String.prototype.split("/")`: walks the
character list, cutting at every `'/'`; `acc` holds the characters of the
current segment in reverse. -/
def splitSegsAux : List Char → List Char → List (List Char)
  | [], acc => [acc.reverse]
  | c :: cs, acc =>
    if c = '/' then acc.reverse :: splitSegsAux cs []
    else splitSegsAux cs (c :: acc)

/-- JS `pathname.split("/")`: e.g. `"/a/b"` becomes `["", "a", "b"]` and
`"/"` becomes `["", ""]`. -/
def splitSlash (s : String) : List String :=
  (splitSegsAux s.data []).map String.mk

/-- JS `s.startsWith(pre)`. -/
def strStartsWith (s pre : String) : Bool :=
  pre.data.isPrefixOf s.data

/-- JS `path.replaceAll("/", "")`. -/
def stripSlashes (s : String) : String :=
  String.mk (s.data.filter (fun c => c ≠ '/'))

/-- JS `const path = parts.pop() || parts.pop();` from `getRouteFromUrl`:
the last element when it is truthy (non-empty), otherwise the element
before it (possibly empty), `none` when the pops run out of elements. -/
def popSegment (parts : List String) : Option String :=
  match parts.getLast? with
  | none => none
  | some s => if s ≠ "" then some s else parts.dropLast.getLast?

/-! ## The static tables of `src/i18n/ui.ts` -/

/-- The `en` field of the `routes` table. -/
def enRoutes : List (String × String) :=
  [("home", ""), ("blog", "blog"), ("about", "about")]

/-- The `ptbr` field of the `routes` table. -/
def ptbrRoutes : List (String × String) :=
  [("home", ""), ("blog", "blog"), ("about", "about")]

/-- `export const routes : UIType`, locale code to route table. -/
def routes : List (String × List (String × String)) :=
  [("en", enRoutes), ("ptbr", ptbrRoutes)]

/-- `export const defaultLang = 'en'`. -/
def defaultLang : String := "en"

/-- The `en` field of the `ui` string table. -/
def enUI : List (String × String) :=
  [("nav.home", "Home"), ("nav.blog", "Blog"),
   ("nav.about", "About"), ("nav.title", "Navigation")]

/-- The `ptbr` field of the `ui` string table (note: no `nav.home` and no
`nav.blog` entries). -/
def ptbrUI : List (String × String) :=
  [("nav.about", "Sobre mim"), ("nav.title", "Navegação")]

/-- `export const ui : UIType`, locale code to UI-string table. -/
def ui : List (String × List (String × String)) :=
  [("en", enUI), ("ptbr", ptbrUI)]

/-- `export const showDefaultLang = false`. -/
def showDefaultLang : Bool := false

/-! ## The functions of `src/i18n/utils.ts` -/

/-- `getLangFromUrl(url)`: destructures `url.pathname.split("/")` as
`[, lang]` and returns `lang` when `lang in ui`, else `defaultLang`. -/
def getLangFromUrl (p : String) : String :=
  match (splitSlash p).get? 1 with
  | some lang => if (assoc ui lang).isSome then lang else defaultLang
  | none => defaultLang

/-- The translation function `t` returned by `useTranslations(lang)`:
`ui[lang][key] || ui[defaultLang][key]`. The TypeScript types confine
`lang` to the keys of `ui`; an unknown locale is mapped to `none`
(the source would throw there). The `||` falls back both when the active
locale's entry is missing and when it is the empty string. -/
def t (lang key : String) : Option String :=
  match assoc ui lang, assoc ui defaultLang with
  | some tbl, some dtbl =>
    match assoc tbl key with
    | some v => if v ≠ "" then some v else assoc dtbl key
    | none => assoc dtbl key
  | _, _ => none

/-- `translatePath(path, l)` returned by `useTranslatedPath` (the closure's
captured `lang` only supplies the default for `l`, so we take `l`
explicitly). `hasTranslation` holds when `l` is not the default locale,
`routes[l]` exists and has an entry for the slash-stripped path; then the
translated segment (with a leading slash) replaces the path, else the path
is kept; finally the locale prefix is added unless the locale is the
default and `showDefaultLang` is off. -/
def translatePath (path l : String) : String :=
  let pathName := stripSlashes path
  let translation : Option String :=
    if defaultLang = l then none
    else match assoc routes l with
         | some tbl => assoc tbl pathName
         | none => none
  let translatedPath :=
    match translation with
    | some seg => "/" ++ seg
    | none => path
  if !showDefaultLang && l == defaultLang then translatedPath
  else "/" ++ l ++ translatedPath

/-- The local helper `getKeyByValue(obj, value)` of `getRouteFromUrl`:
first key whose value equals `value`. -/
def getKeyByValue (tbl : List (String × String)) (v : String) : Option String :=
  (tbl.find? (fun p => p.2 == v)).map Prod.fst

/-- `getRouteFromUrl(url)`, generalized over the `routes` module constant
(the source reads the module-level `routes`; taking it as a parameter lets
the spec's scenario tables be stated). Pops the last segment (or the one
before a trailing slash); special-cases blog paths; for the default locale
looks the segment up in `Object.values(routes)[0]` (the first declared
locale's table) and returns its *value*; otherwise reverse-looks it up in
the active locale's table and returns the key. -/
def getRouteFromUrlWith (rts : List (String × List (String × String)))
    (p : String) : Option String :=
  match popSegment (splitSlash p) with
  | none => none
  | some path =>
    if strStartsWith p "/blog/" || strStartsWith p "/ptbr/blog/" then
      some ("blog/" ++ path)
    else if defaultLang = getLangFromUrl p then
      match (rts.map Prod.snd).head? with
      | some route => assoc route path
      | none => none
    else
      match assoc rts (getLangFromUrl p) with
      | some tbl => getKeyByValue tbl path
      | none => none

/-- `getRouteFromUrl` as in the source, over the module-level `routes`. -/
def getRouteFromUrl (p : String) : Option String :=
  getRouteFromUrlWith routes p

/-! ## The `ThemeToggle` component

The component's observable state is the in-memory `theme` string, the value
stored in `localStorage` under the key `"theme"`, and whether the `dark`
class is set on the document element. The `useEffect` with dependency
`[theme]` runs after the mount and after every state change. -/

/-- Observable state of the `ThemeToggle` widget. -/
structure ThemeState where
  theme : String
  storage : Option String
  darkClass : Bool
deriving DecidableEq

/-- The body of the `useEffect`: toggles the `dark` class from the current
theme and runs `localStorage.setItem("theme", theme)`. -/
def applyEffect (s : ThemeState) : ThemeState :=
  { s with darkClass := s.theme == "dark", storage := some s.theme }

/-- Mounting in the browser: `useState(localStorage.getItem("theme") ?? "dark")`
followed by the first effect run. `stored` is the stored value of the key
`"theme"` (absent = `none`); the document starts without the `dark` class. -/
def mount (stored : Option String) : ThemeState :=
  applyEffect { theme := stored.getD "dark", storage := stored, darkClass := false }

/-- `handleClick` (`setTheme(theme === "light" ? "dark" : "light")`)
followed by the effect re-run. -/
def click (s : ThemeState) : ThemeState :=
  applyEffect { s with theme := if s.theme == "light" then "dark" else "light" }

end Blog

namespace Blog

/-! ## Helper lemmas -/

/-- Rebuilding a string from its character list is the identity. -/
theorem mk_data (s : String) : String.mk s.data = s := rfl

/-- On a character list without separators the splitter yields one segment. -/
theorem splitSegsAux_no_slash (cs : List Char) (h : '/' ∉ cs) (acc : List Char) :
    splitSegsAux cs acc = [acc.reverse ++ cs] := by
  induction cs generalizing acc with
  | nil => simp [splitSegsAux]
  | cons c cs ih =>
    simp only [List.mem_cons, not_or] at h
    rw [splitSegsAux, if_neg (fun e => h.1 e.symm), ih h.2]
    simp

/-- Splitting a list that opens with a separator-free run followed by a
separator cuts exactly there. -/
theorem splitSegsAux_slash (cs1 : List Char) (h : '/' ∉ cs1) (cs2 acc : List Char) :
    splitSegsAux (cs1 ++ '/' :: cs2) acc = (acc.reverse ++ cs1) :: splitSegsAux cs2 [] := by
  induction cs1 generalizing acc with
  | nil => simp [splitSegsAux]
  | cons c cs ih =>
    simp only [List.mem_cons, not_or] at h
    rw [List.cons_append, splitSegsAux, if_neg (fun e => h.1 e.symm), ih h.2]
    simp

/-- A list is a Boolean prefix of itself followed by anything. -/
theorem isPrefixOf_append_self (l t : List Char) : l.isPrefixOf (l ++ t) = true := by
  induction l with
  | nil => cases t <;> rfl
  | cons c cs ih => simp [List.isPrefixOf, ih]

/-- `getLangFromUrl` only ever returns a key of `ui`, i.e. `"en"` or
`"ptbr"`. -/
theorem getLang_mem (p : String) : getLangFromUrl p = "en" ∨ getLangFromUrl p = "ptbr" := by
  unfold getLangFromUrl
  cases h : (splitSlash p).get? 1 with
  | none => left; rfl
  | some lang =>
    by_cases h1 : lang = "en"
    · subst h1; left; decide
    · by_cases h2 : lang = "ptbr"
      · subst h2; right; decide
      · left
        have b1 : (("en" : String) == lang) = false := by
          simp only [beq_eq_false_iff_ne, ne_eq]; exact fun e => h1 e.symm
        have b2 : (("ptbr" : String) == lang) = false := by
          simp only [beq_eq_false_iff_ne, ne_eq]; exact fun e => h2 e.symm
        have hnone : assoc ui lang = none := by
          simp only [assoc, ui, List.find?, b1, b2, Option.map_none']
        simp [hnone, defaultLang]

end Blog

namespace Blog

/-! ## Claim theorems -/

/-- C1, counterexample: the round-trip law fails at the canonical route
`home`, which exists in every locale's table. Translating it to the default
locale gives `/home`, and `getRouteFromUrl` then returns the table *value*
`""` (the default-locale branch returns `route[path]`, not the key), not
`home`. -/
theorem roundtrip_home_counterexample :
    translatePath "/home" "en" = "/home" ∧
    getRouteFromUrl (translatePath "/home" "en") = some "" ∧
    getRouteFromUrl (translatePath "/home" "en") ≠ some "home" := by
  refine ⟨rfl, rfl, ?_⟩
  decide

/-- C1, amended: under `showDefaultLang = false`, translating a canonical
route to the default locale and reverse-looking the result up returns the
route for `blog` and `about` (whose translated segment equals the key);
for `home` it instead returns the localized segment `""`. -/
theorem roundtrip_default_locale_amended :
    getRouteFromUrl (translatePath "/blog" "en") = some "blog" ∧
    getRouteFromUrl (translatePath "/about" "en") = some "about" ∧
    getRouteFromUrl (translatePath "/home" "en") = some "" := by
  refine ⟨?_, ?_, ?_⟩ <;> rfl

/-- C2: for each supported locale and each canonical route of the route
table, translating the route's canonical path to the locale and reading
the locale back off the produced URL path returns the locale. -/
theorem translate_then_lang_is_locale (L R : String)
    (hL : L = "en" ∨ L = "ptbr")
    (hR : R = "home" ∨ R = "blog" ∨ R = "about") :
    getLangFromUrl (translatePath ("/" ++ R) L) = L := by
  rcases hL with rfl | rfl <;> rcases hR with rfl | rfl | rfl <;> decide

/-- Witness for C2 at the locale `ptbr` and route `about`. -/
theorem translate_then_lang_is_locale_witness :
    getLangFromUrl (translatePath ("/" ++ "about") "ptbr") = "ptbr" :=
  translate_then_lang_is_locale "ptbr" "about" (Or.inr rfl) (Or.inr (Or.inr rfl))

/-- C3, counterexample: `/xyz` has no entry in the `ptbr` route table once
slashes are stripped, yet `translatePath("/xyz", "ptbr")` is `/ptbr/xyz`,
not the original path: a locale prefix is still added for non-default
locales. -/
theorem translate_unresolved_counterexample :
    assoc ptbrRoutes (stripSlashes "/xyz") = none ∧
    translatePath "/xyz" "ptbr" = "/ptbr/xyz" ∧
    translatePath "/xyz" "ptbr" ≠ "/xyz" := by
  refine ⟨rfl, rfl, ?_⟩
  decide

/-- C3, amended: when the slash-stripped path has no entry in the target
locale's route table, the path portion is kept unchanged and no error is
possible (the function is total); the result is the original path itself
for the default locale and the locale-prefixed original path otherwise. -/
theorem translate_unresolved_fallback (P l : String)
    (h : ∀ tbl, assoc routes l = some tbl → assoc tbl (stripSlashes P) = none) :
    translatePath P l = if l = defaultLang then P else "/" ++ l ++ P := by
  by_cases hl : l = defaultLang
  · subst hl
    simp [translatePath, showDefaultLang, defaultLang]
  · have h2 : ¬(defaultLang = l) := fun e => hl e.symm
    have h3 : (l == defaultLang) = false := by
      simp only [beq_eq_false_iff_ne, ne_eq]; exact hl
    cases e : assoc routes l with
    | none => simp [translatePath, h2, h3, e, hl]
    | some tbl => simp [translatePath, h2, h3, e, h tbl e, hl]

/-- Witness for C3 at `P = "/xyz"`, `l = "ptbr"`. -/
theorem translate_unresolved_fallback_witness :
    translatePath "/xyz" "ptbr" =
      if ("ptbr" : String) = defaultLang then "/xyz" else "/" ++ "ptbr" ++ "/xyz" := by
  have hyp : ∀ tbl, assoc routes "ptbr" = some tbl →
      assoc tbl (stripSlashes "/xyz") = none := by
    intro tbl h
    have e : assoc routes "ptbr" = some ptbrRoutes := rfl
    rw [e] at h
    cases h
    decide
  exact translate_unresolved_fallback "/xyz" "ptbr" hyp

/-- C6: when the path's first segment (the part between the leading slash
and the next one) is not a key of `ui`, `getLangFromUrl` returns the
default locale, never the segment itself. -/
theorem unknown_locale_defaults (p s : String)
    (h1 : (splitSlash p)[1]? = some s) (h2 : assoc ui s = none) :
    getLangFromUrl p = defaultLang := by
  simp [getLangFromUrl, h1, h2]

/-- Witness for C6 at the path `/unknownlocale/about`. -/
theorem unknown_locale_defaults_witness :
    getLangFromUrl "/unknownlocale/about" = defaultLang :=
  unknown_locale_defaults "/unknownlocale/about" "unknownlocale" (by decide) (by decide)

/-- C8: mounting the theme toggle with no stored `theme` value yields the
theme `dark`; one click moves the theme to `light` and persists `"light"`
under the storage key `theme`. -/
theorem theme_first_click :
    (mount none).theme = "dark" ∧
    (click (mount none)).theme = "light" ∧
    (click (mount none)).storage = some "light" := by
  refine ⟨rfl, rfl, rfl⟩

/-- C10: after the mount effect and after any number of clicks, the value
stored under the `theme` key equals the in-memory theme state; the
consistency invariant is preserved by every transition. -/
theorem theme_storage_invariant (stored : Option String) (n : Nat) :
    (click^[n] (mount stored)).storage = some ((click^[n] (mount stored)).theme) := by
  induction n with
  | zero => rfl
  | succ n ih => rw [Function.iterate_succ_apply']; rfl

/-- Witness for C10 at absent storage and two clicks. -/
theorem theme_storage_invariant_witness :
    (click^[2] (mount none)).storage = some ((click^[2] (mount none)).theme) :=
  theme_storage_invariant none 2

end Blog

namespace Blog

/-- Splitting the path of a blog URL in the default locale: for a slug
without slashes, `"/blog/<s>/"` splits into `["", "blog", s, ""]`. -/
theorem splitSlash_blog (s : String) (h : '/' ∉ s.data) :
    splitSlash ("/blog/" ++ s ++ "/") = ["", "blog", s, ""] := by
  have e1 : ("/blog/" ++ s ++ "/").data
      = [] ++ '/' :: (['b','l','o','g'] ++ '/' :: (s.data ++ '/' :: [])) := by
    rw [String.data_append, String.data_append]
    rw [show "/blog/".data = ['/','b','l','o','g','/'] from rfl,
        show "/".data = ['/'] from rfl]
    simp
  unfold splitSlash
  rw [e1, splitSegsAux_slash [] (by decide), splitSegsAux_slash ['b','l','o','g'] (by decide),
      splitSegsAux_slash s.data h]
  simp [splitSegsAux, mk_data]

/-- Splitting the path of a blog URL in the `ptbr` locale. -/
theorem splitSlash_ptbr_blog (s : String) (h : '/' ∉ s.data) :
    splitSlash ("/ptbr/blog/" ++ s ++ "/") = ["", "ptbr", "blog", s, ""] := by
  have e1 : ("/ptbr/blog/" ++ s ++ "/").data
      = [] ++ '/' :: (['p','t','b','r'] ++ '/' :: (['b','l','o','g'] ++ '/' :: (s.data ++ '/' :: []))) := by
    rw [String.data_append, String.data_append]
    rw [show "/ptbr/blog/".data = ['/','p','t','b','r','/','b','l','o','g','/'] from rfl,
        show "/".data = ['/'] from rfl]
    simp
  unfold splitSlash
  rw [e1, splitSegsAux_slash [] (by decide), splitSegsAux_slash ['p','t','b','r'] (by decide),
      splitSegsAux_slash ['b','l','o','g'] (by decide), splitSegsAux_slash s.data h]
  simp [splitSegsAux, mk_data]

/-- A blog URL in the default locale starts with the `"/blog/"` marker. -/
theorem blogStart (s : String) : strStartsWith ("/blog/" ++ s ++ "/") "/blog/" = true := by
  unfold strStartsWith
  rw [String.data_append, String.data_append]
  rw [show ("/blog/".data ++ s.data) ++ "/".data = "/blog/".data ++ (s.data ++ "/".data) from by simp]
  exact isPrefixOf_append_self _ _

/-- A blog URL in the `ptbr` locale starts with the `"/ptbr/blog/"` marker. -/
theorem ptbrBlogStart (s : String) : strStartsWith ("/ptbr/blog/" ++ s ++ "/") "/ptbr/blog/" = true := by
  unfold strStartsWith
  rw [String.data_append, String.data_append]
  rw [show ("/ptbr/blog/".data ++ s.data) ++ "/".data = "/ptbr/blog/".data ++ (s.data ++ "/".data) from by simp]
  exact isPrefixOf_append_self _ _

/-- C4: for every slug without slashes, `getRouteFromUrl` on
`/blog/<slug>/` and on `/ptbr/blog/<slug>/` returns `"blog/" ++ slug`,
bypassing the route table, for both supported locales. -/
theorem route_blog_bypass (s : String) (h : '/' ∉ s.data) :
    getRouteFromUrl ("/blog/" ++ s ++ "/") = some ("blog/" ++ s) ∧
    getRouteFromUrl ("/ptbr/blog/" ++ s ++ "/") = some ("blog/" ++ s) := by
  constructor
  · simp only [getRouteFromUrl, getRouteFromUrlWith, splitSlash_blog s h]
    rw [show popSegment ["", "blog", s, ""] = some s from rfl]
    simp [blogStart s]
  · simp only [getRouteFromUrl, getRouteFromUrlWith, splitSlash_ptbr_blog s h]
    rw [show popSegment ["", "ptbr", "blog", s, ""] = some s from rfl]
    simp [ptbrBlogStart s]

/-- Witness for C4 at the slug `my-post`. -/
theorem route_blog_bypass_witness :
    getRouteFromUrl ("/blog/" ++ "my-post" ++ "/") = some ("blog/" ++ "my-post") ∧
    getRouteFromUrl ("/ptbr/blog/" ++ "my-post" ++ "/") = some ("blog/" ++ "my-post") :=
  route_blog_bypass "my-post" (by decide)

end Blog

namespace Blog

/-- Reverse lookup in the `ptbr` route table inverts the forward lookup:
the table's values are pairwise distinct, so the first key whose value
matches is the original key. -/
theorem ptbr_reverse_of_forward (k seg : String) (hk : assoc ptbrRoutes k = some seg) :
    getKeyByValue ptbrRoutes seg = some k := by
  by_cases h1 : k = "home"
  · subst h1
    have e : assoc ptbrRoutes "home" = some "" := rfl
    rw [e] at hk
    cases hk
    rfl
  · by_cases h2 : k = "blog"
    · subst h2
      have e : assoc ptbrRoutes "blog" = some "blog" := rfl
      rw [e] at hk
      cases hk
      rfl
    · by_cases h3 : k = "about"
      · subst h3
        have e : assoc ptbrRoutes "about" = some "about" := rfl
        rw [e] at hk
        cases hk
        rfl
      · exfalso
        have b1 : (("home" : String) == k) = false := by
          simp only [beq_eq_false_iff_ne, ne_eq]; exact fun e => h1 e.symm
        have b2 : (("blog" : String) == k) = false := by
          simp only [beq_eq_false_iff_ne, ne_eq]; exact fun e => h2 e.symm
        have b3 : (("about" : String) == k) = false := by
          simp only [beq_eq_false_iff_ne, ne_eq]; exact fun e => h3 e.symm
        simp only [assoc, ptbrRoutes, List.find?, b1, b2, b3, Option.map_none'] at hk
        cases hk

/-- C5, counterexample: on the path `/ptbr/about//` the *last non-empty*
segment is `about`, the active locale is `ptbr` (not the default), the path
is not a blog path, and the key `about` maps to the value `about` — yet
`getRouteFromUrl` returns `home`, not `about`, because the source pops at
most one trailing empty segment and then reverse-looks up the empty string
(whose value in the table belongs to `home`). -/
theorem reverse_lookup_counterexample :
    getLangFromUrl "/ptbr/about//" ≠ defaultLang ∧
    strStartsWith "/ptbr/about//" "/blog/" = false ∧
    strStartsWith "/ptbr/about//" "/ptbr/blog/" = false ∧
    ((splitSlash "/ptbr/about//").filter (fun seg => seg ≠ "")).getLast? = some "about" ∧
    assoc ptbrRoutes "about" = some "about" ∧
    getRouteFromUrl "/ptbr/about//" = some "home" ∧
    getRouteFromUrl "/ptbr/about//" ≠ some "about" := by
  refine ⟨by decide, rfl, rfl, ?_, rfl, rfl, by decide⟩
  decide

/-- C5, amended: for every non-blog URL whose active locale is not the
default, if a key of the active locale's route table maps to the segment
the source extracts (the final path segment, or the one before it when the
final segment is empty), `getRouteFromUrl` returns that key; and on the
spec's scenario table `{ptbr: {about: "sobre"}}` the input `/ptbr/sobre`
yields `about`. -/
theorem reverse_lookup_amended :
    (∀ p seg k : String,
      strStartsWith p "/blog/" = false →
      strStartsWith p "/ptbr/blog/" = false →
      getLangFromUrl p ≠ defaultLang →
      popSegment (splitSlash p) = some seg →
      assoc ptbrRoutes k = some seg →
      getRouteFromUrl p = some k) ∧
    getRouteFromUrlWith [("ptbr", [("about", "sobre")])] "/ptbr/sobre" = some "about" := by
  constructor
  · intro p seg k hb1 hb2 hlang hseg hk
    have hptbr : getLangFromUrl p = "ptbr" := (getLang_mem p).resolve_left hlang
    simp only [getRouteFromUrl, getRouteFromUrlWith, hseg, hb1, hb2, hptbr]
    rw [show assoc routes "ptbr" = some ptbrRoutes from rfl]
    simp [defaultLang, ptbr_reverse_of_forward k seg hk]
  · decide

/-- Witness for C5's amended statement at the path `/ptbr/about`. -/
theorem reverse_lookup_amended_witness : getRouteFromUrl "/ptbr/about" = some "about" :=
  reverse_lookup_amended.1 "/ptbr/about" "about" "about"
    (by decide) (by decide) (by decide) (by decide) (by decide)

/-- C7: for a non-blog URL whose extracted segment matches no entry of the
applicable table — no key of the default table when the active locale is
the default, no value of the active locale's table otherwise —
`getRouteFromUrl` returns `none` (and, being a total function, raises no
error). -/
theorem route_miss_returns_none (p : String)
    (hb1 : strStartsWith p "/blog/" = false)
    (hb2 : strStartsWith p "/ptbr/blog/" = false)
    (h : ∀ seg, popSegment (splitSlash p) = some seg →
         (getLangFromUrl p = "en" → assoc enRoutes seg = none) ∧
         (getLangFromUrl p = "ptbr" → getKeyByValue ptbrRoutes seg = none)) :
    getRouteFromUrl p = none := by
  cases hseg : popSegment (splitSlash p) with
  | none => simp [getRouteFromUrl, getRouteFromUrlWith, hseg]
  | some seg =>
    obtain ⟨h1, h2⟩ := h seg hseg
    rcases getLang_mem p with he | hp
    · simp only [getRouteFromUrl, getRouteFromUrlWith, hseg, hb1, hb2, he]
      rw [show ((routes.map Prod.snd).head? : Option (List (String × String))) = some enRoutes from rfl]
      simp [defaultLang, h1 he]
    · simp only [getRouteFromUrl, getRouteFromUrlWith, hseg, hb1, hb2, hp]
      rw [show assoc routes "ptbr" = some ptbrRoutes from rfl]
      simp [defaultLang, h2 hp]

/-- Witness for C7 at the path `/xyz`. -/
theorem route_miss_returns_none_witness : getRouteFromUrl "/xyz" = none := by
  refine route_miss_returns_none "/xyz" (by decide) (by decide) ?_
  intro seg hseg
  have h2 : popSegment (splitSlash "/xyz") = some "xyz" := by decide
  rw [h2] at hseg
  cases hseg
  exact ⟨fun _ => by decide, fun _ => by decide⟩

/-- C9: for a supported locale and a key whose default-locale string is
non-empty, `t` from `useTranslations` yields a defined non-empty string:
the active locale's string when that is present and non-empty, and the
default locale's string otherwise (missing entry or empty string). -/
theorem translation_fallback (L K v : String)
    (hL : L = "en" ∨ L = "ptbr")
    (hv : assoc enUI K = some v) (hne : v ≠ "") :
    ∀ tbl, assoc ui L = some tbl →
      ((∀ w, assoc tbl K = some w → w ≠ "" → t L K = some w) ∧
       ((assoc tbl K = none ∨ assoc tbl K = some "") → t L K = some v) ∧
       (∃ w, t L K = some w ∧ w ≠ "")) := by
  intro tbl htbl
  rcases hL with rfl | rfl
  · rw [show assoc ui "en" = some enUI from rfl] at htbl
    cases htbl
    refine ⟨?_, ?_, ?_⟩
    · intro w hw hwne
      rw [hv] at hw
      cases hw
      simp [t, defaultLang]
      rw [show assoc ui "en" = some enUI from rfl]
      simp [hv, hwne]
    · rintro (hnone | hempty)
      · rw [hv] at hnone; cases hnone
      · rw [hv] at hempty
        cases hempty
        exact absurd rfl hne
    · refine ⟨v, ?_, hne⟩
      simp [t, defaultLang]
      rw [show assoc ui "en" = some enUI from rfl]
      simp [hv, hne]
  · rw [show assoc ui "ptbr" = some ptbrUI from rfl] at htbl
    cases htbl
    have hteq : t "ptbr" K =
        (match assoc ptbrUI K with
         | some w => if w ≠ "" then some w else assoc enUI K
         | none => assoc enUI K) := by
      simp [t, defaultLang]
      rw [show assoc ui "ptbr" = some ptbrUI from rfl,
          show assoc ui "en" = some enUI from rfl]
    refine ⟨?_, ?_, ?_⟩
    · intro w hw hwne
      rw [hteq, hw]
      simp [hwne]
    · rintro (hnone | hempty)
      · rw [hteq, hnone, hv]
      · rw [hteq, hempty]
        simp [hv]
    · rw [hteq]
      cases hpt : assoc ptbrUI K with
      | none => exact ⟨v, hv, hne⟩
      | some w =>
        by_cases hw : w = ""
        · subst hw
          refine ⟨v, ?_, hne⟩
          show (if ("" : String) ≠ "" then some "" else assoc enUI K) = some v
          rw [if_neg (by simp)]
          exact hv
        · refine ⟨w, ?_, hw⟩
          show (if w ≠ "" then some w else assoc enUI K) = some w
          rw [if_pos hw]

/-- Witness for C9 at the locale `ptbr` and the key `nav.home`, which is
absent from the `ptbr` table and falls back to the English `Home`. -/
theorem translation_fallback_witness :
    (∀ w, assoc ptbrUI "nav.home" = some w → w ≠ "" → t "ptbr" "nav.home" = some w) ∧
    ((assoc ptbrUI "nav.home" = none ∨ assoc ptbrUI "nav.home" = some "") →
      t "ptbr" "nav.home" = some "Home") ∧
    (∃ w, t "ptbr" "nav.home" = some w ∧ w ≠ "") :=
  translation_fallback "ptbr" "nav.home" "Home" (Or.inr rfl) (by decide) (by decide)
    ptbrUI (by decide)

end Blog
